import Mathlib

/-!
Shallow embedding of the usage-estimation and confidence-scoring core of the
fulfillment-ops analytics service, together with theorems checking the
natural-language specification against it.

Sources embedded (Python):
- apps/ds-analytics/utils/confidence.py      (ConfidenceCalculator)
- apps/ds-analytics/utils/statistical.py     (quantiles, IQR outliers, time
  weights, CV, reorder quantity, stockout prediction)
- apps/ds-analytics/services/usage_calculator.py (UsageCalculator)

Modelling conventions:
- Python floats are modelled as rationals (ℚ).  Where the source can
  produce IEEE special values they are modelled explicitly: the +inf that
  |delta| / 0 yields for a same-day snapshot pair is ⊤ in WithTop ℚ and is
  kept through the positivity filter into the 0.95 quantile exactly as the
  float is, and a NaN quantile (from inf - inf or 0 times inf in the
  interpolation) is the none of an Option, under which every strict
  comparison is false.  Two further specials that no theorem here depends
  on are approximated: the float-inf sentinel of
  calculate_coefficient_of_variation when the mean is zero becomes an
  abstract constant, and the NaN of a ddof=1 variance of a singleton series
  becomes 0 via the ℚ convention x / 0 = 0.
- Square roots and the FFT used by seasonality detection are irrational /
  transcendental, hence not ℚ-computable; they are abstracted into a
  NumOracle record over which every theorem universally quantifies.
- datetimes are modelled as day counts (ℚ, fractional days allowed);
  timedelta .days is floor, Python int() is truncation toward zero.
- SQL query results are modelled as the row lists they return; the database
  round-trip itself is an external collaborator per the spec boundary.
-/

namespace FulfillmentOps

/-- Abstraction of the floating-point operations that have no exact ℚ
counterpart: square root, the float-inf sentinel, and the FFT-based
seasonality test of detect_seasonality. -/
structure NumOracle where
  sqrtQ : ℚ → ℚ
  infQ : ℚ
  fftSeasonal : List ℚ → Bool

/-- Concrete oracle used to instantiate witnesses. -/
def constOracle : NumOracle := ⟨fun _ => 0, 0, fun _ => false⟩

/-- Python round(x, 2).  Modelled as round-half-up to 2 decimals; the source
uses the platform round-half-even on binary floats, and no claim below
depends on the direction of a tie. -/
def round2 (x : ℚ) : ℚ := (⌊x * 100 + 1/2⌋ : ℚ) / 100

/-- Python int(): truncation toward zero. -/
def truncQ (q : ℚ) : ℤ := if 0 ≤ q then ⌊q⌋ else ⌈q⌉

/-- Mean of a series (pandas .mean()). -/
def mean (l : List ℚ) : ℚ := l.sum / l.length

/-- Sample variance with ddof = 1 (pandas .var()).  For a singleton series
pandas yields NaN; here the ℚ convention 0 / 0 = 0 applies instead, and no
claim below reads the variance of a singleton. -/
def sampleVar (l : List ℚ) : ℚ :=
  (l.map (fun x => (x - mean l) ^ 2)).sum / ((l.length : ℚ) - 1)

/-- Insertion of an element into a sorted list (ascending). -/
def insertSorted {α : Type} [LinearOrder α] (x : α) : List α → List α
  | [] => [x]
  | y :: ys => if x ≤ y then x :: y :: ys else y :: insertSorted x ys

/-- Ascending insertion sort, standing in for the sort pandas performs
before quantile interpolation.  Generic in the ordered value type so the
same sort serves both plain rationals and rationals extended with the
float +inf (WithTop ℚ, whose order places ⊤ last, as IEEE sorts +inf). -/
def sortQ {α : Type} [LinearOrder α] : List α → List α
  | [] => []
  | x :: xs => insertSorted x (sortQ xs)

/-- Pandas Series.quantile with the default linear interpolation: with the
values sorted ascending, position h = (n-1)q, the result interpolates
between the elements at ⌊h⌋ and ⌊h⌋+1. -/
def quantileLinear (q : ℚ) (l : List ℚ) : ℚ :=
  let s := sortQ l
  if s = [] then 0
  else
    let h : ℚ := ((s.length : ℚ) - 1) * q
    let i : ℕ := (⌊h⌋).toNat
    let lo := s.getD i 0
    let hi := s.getD (i + 1) lo
    lo + (h - (⌊h⌋ : ℚ)) * (hi - lo)

/-- Float division as numpy performs it on a strictly positive numerator:
division by zero yields +inf (modelled as ⊤ in WithTop ℚ), otherwise the
exact quotient.  Used only for |delta| / days_between, whose numerator is
strictly positive because only strictly negative deltas reach it. -/
def divInf (a b : ℚ) : WithTop ℚ :=
  if b = 0 then ⊤ else ((a / b : ℚ) : WithTop ℚ)

/-- The same pandas quantile as quantileLinear, evaluated over floats that
may include +inf (⊤).  The interpolation lo + g (hi - lo) follows IEEE
arithmetic: with a finite lo and hi = +inf it gives +inf for g > 0 but NaN
for g = 0 (from 0 times inf), and with lo = +inf it gives NaN (from
inf - inf); NaN is modelled as the outer none.  In the WithTop order ⊤ is
maximal, so sorting places the +inf entries last exactly as IEEE sorting
does. -/
def quantileLinearF (q : ℚ) (l : List (WithTop ℚ)) : Option (WithTop ℚ) :=
  let s := sortQ l
  if s = [] then none
  else
    let h : ℚ := ((s.length : ℚ) - 1) * q
    let i : ℕ := (⌊h⌋).toNat
    let g : ℚ := h - (⌊h⌋ : ℚ)
    let lo := s.getD i 0
    let hi := s.getD (i + 1) lo
    match lo, hi with
    | Option.some lq, Option.some hq => some ((lq + g * (hq - lq) : ℚ) : WithTop ℚ)
    | Option.some _, none => if g = 0 then none else some ⊤
    | none, _ => none

/-! ## confidence.py — ConfidenceCalculator -/

/-- ConfidenceCalculator._score_data_points. -/
def score_data_points (data_points : ℕ) : ℚ :=
  if data_points ≥ 12 then 1
  else if data_points ≥ 6 then 3/4
  else if data_points ≥ 3 then 1/2
  else 1/4

/-- ConfidenceCalculator._score_consistency. -/
def score_consistency (coefficient_of_variation : ℚ) : ℚ :=
  if coefficient_of_variation < 1/5 then 1
  else if coefficient_of_variation < 1/2 then 7/10
  else if coefficient_of_variation < 1 then 2/5
  else 1/5

/-- ConfidenceCalculator._score_recency. -/
def score_recency (days_since_last_data : ℤ) : ℚ :=
  if days_since_last_data ≤ 30 then 1
  else if days_since_last_data ≤ 60 then 4/5
  else if days_since_last_data ≤ 90 then 3/5
  else 2/5

/-- ConfidenceCalculator.METHOD_SCORES lookup with its default 0.5. -/
def method_score (calculation_method : String) : ℚ :=
  if calculation_method = "snapshot_delta" then 9/10
  else if calculation_method = "order_fulfillment" then 17/20
  else if calculation_method = "hybrid" then 19/20
  else if calculation_method = "stock_movement" then 4/5
  else if calculation_method = "estimated" then 3/10
  else 1/2

/-- ConfidenceCalculator.calculate_confidence: weighted sum of the five
sub-scores with WEIGHTS {data_points 0.30, consistency 0.25, recency 0.20,
method_reliability 0.15, cross_validation 0.10}, rounded to 2 decimals. -/
def calculate_confidence (data_points : ℕ) (coefficient_of_variation : ℚ)
    (days_since_last_data : ℤ) (calculation_method : String)
    (cross_validation_score : Option ℚ) : ℚ :=
  let cv_score := cross_validation_score.getD (1/2)
  round2 ((3/10) * score_data_points data_points
    + (1/4) * score_consistency coefficient_of_variation
    + (1/5) * score_recency days_since_last_data
    + (3/20) * method_score calculation_method
    + (1/10) * cv_score)

/-- ConfidenceCalculator.classify_confidence_level. -/
def classify_confidence_level (score : ℚ) : String :=
  if score ≥ 3/4 then "high"
  else if score ≥ 1/2 then "medium"
  else "low"

/-- ConfidenceCalculator.determine_calculation_tier. -/
def determine_calculation_tier (data_months : ℤ) : String :=
  if data_months ≥ 12 then "12_month"
  else if data_months ≥ 6 then "6_month"
  else if data_months ≥ 3 then "3_month"
  else "weekly"

/-! ## statistical.py — primitives consumed by the usage calculator -/

/-- calculate_coefficient_of_variation: std / mean with std = sqrt of the
ddof=1 variance; the source returns the float-inf sentinel when the mean is
exactly 0, modelled by the abstract constant NumOracle.infQ. -/
def coefficient_of_variation (o : NumOracle) (values : List ℚ) : ℚ :=
  if mean values = 0 then o.infQ
  else o.sqrtQ (sampleVar values) / mean values

/-- Bounds and outlier count produced by detect_outliers_iqr (the source
also returns the outlier indices and values, which nothing downstream
reads). -/
structure IQRInfo where
  outlier_count : ℕ
  lower_bound : ℚ
  upper_bound : ℚ

/-- detect_outliers_iqr: Tukey fences at Q1 - 1.5 IQR and Q3 + 1.5 IQR. -/
def detect_outliers_iqr (values : List ℚ) : IQRInfo :=
  let q1 := quantileLinear (1/4) values
  let q3 := quantileLinear (3/4) values
  let iqr := q3 - q1
  let lower := q1 - (3/2) * iqr
  let upper := q3 + (3/2) * iqr
  ⟨(values.filter (fun v => v < lower ∨ upper < v)).length, lower, upper⟩

/-- generate_time_weights: uniform weights with the most recent 3 periods
(if n ≥ 3) boosted to recent_weight, normalized to sum to 1.  Every call in
the source uses the default recent_weight = 1.5. -/
def generate_time_weights (n_periods : ℕ) (recent_weight : ℚ) : List ℚ :=
  let raw := if n_periods ≥ 3
    then List.replicate (n_periods - 3) 1 ++ List.replicate 3 recent_weight
    else List.replicate n_periods 1
  raw.map (fun w => w / raw.sum)

/-- numpy.average(values, weights): weighted sum divided by the weight
total. -/
def npAverage (values weights : List ℚ) : ℚ :=
  (List.zipWith (· * ·) values weights).sum / weights.sum

/-- Result dict of predict_stockout_date.  The source returns a dynamically
typed dict whose values may each be None, so every field is an Option; the
predicted date and the interval endpoints are modelled as day offsets from
the current instant. -/
structure StockoutPrediction where
  predicted_date : Option ℚ
  days_until_stockout : Option ℤ
  confidence_score : Option ℚ
  confidence_interval : Option (ℚ × ℚ)
deriving DecidableEq, Repr

/-- predict_stockout_date: all-optional early return when stock or rate is
non-positive, otherwise days = stock / rate with a 1.96-sigma interval when
a positive variance is supplied and a degenerate interval otherwise. -/
def predict_stockout_date (o : NumOracle) (current_stock daily_usage_rate : ℚ)
    (usage_variance : ℚ) : StockoutPrediction :=
  if daily_usage_rate ≤ 0 ∨ current_stock ≤ 0 then
    ⟨none, none, some 0, none⟩
  else
    let days_until_stockout := current_stock / daily_usage_rate
    let predicted_date := days_until_stockout
    if usage_variance > 0 then
      let std_dev := o.sqrtQ usage_variance
      let margin_days := (196/100) * (std_dev / daily_usage_rate) * o.sqrtQ days_until_stockout
      let confidence := 1 / (1 + margin_days / days_until_stockout)
      ⟨some predicted_date, some (truncQ days_until_stockout), some (round2 confidence),
        some (predicted_date - margin_days, predicted_date + margin_days)⟩
    else
      ⟨some predicted_date, some (truncQ days_until_stockout), some (round2 (1/2)),
        some (predicted_date, predicted_date)⟩

/-- Result dict of calculate_reorder_quantity. -/
structure ReorderResult where
  suggested_quantity_packs : ℤ
  suggested_quantity_units : ℤ
  reorder_point_packs : ℤ
  safety_stock_packs : ℤ
  lead_time_demand_packs : ℤ
deriving DecidableEq, Repr

/-- calculate_reorder_quantity: reorder point = lead-time demand plus safety
stock at daily rate monthly/30.44; the shortfall against current stock is
ceiled to whole packs and then to the order multiple; int() casts
truncate. -/
def calculate_reorder_quantity (monthly_usage : ℚ) (lead_time_days : ℤ)
    (safety_stock_weeks : ℤ) (current_stock : ℚ) (pack_size : ℤ)
    (order_multiple : Option ℤ) : ReorderResult :=
  let daily_usage := monthly_usage / (3044/100)
  let lead_time_usage := daily_usage * lead_time_days
  let safety_stock := daily_usage * 7 * safety_stock_weeks
  let reorder_point := lead_time_usage + safety_stock
  let suggested_qty := max 0 (reorder_point - current_stock)
  let packs0 : ℚ := if 0 < pack_size
    then ((⌈suggested_qty / (pack_size : ℚ)⌉ : ℤ) : ℚ)
    else suggested_qty
  let suggested_packs : ℚ := match order_multiple with
    | some m => if 0 < m then ((⌈packs0 / (m : ℚ)⌉ : ℤ) : ℚ) * m else packs0
    | none => packs0
  { suggested_quantity_packs := truncQ suggested_packs
    suggested_quantity_units := truncQ (suggested_packs * pack_size)
    reorder_point_packs := if 0 < pack_size then ⌈reorder_point / (pack_size : ℚ)⌉ else truncQ reorder_point
    safety_stock_packs := if 0 < pack_size then ⌈safety_stock / (pack_size : ℚ)⌉ else truncQ safety_stock
    lead_time_demand_packs := if 0 < pack_size then ⌈lead_time_usage / (pack_size : ℚ)⌉ else truncQ lead_time_usage }

/-- Trend classification of calculate_usage_velocity_trend: OLS slope of
usage against the period index, stable when |slope| < 0.05 mean.  Only the
trend entry of the source dict is consumed by the pipeline (the r², p-value
and change-rate diagnostics are returned but never read), so only it is
embedded. -/
def usage_velocity_trend_direction (monthly_usage_history : List ℚ) : String :=
  if monthly_usage_history.length < 3 then "unknown"
  else
    let n := monthly_usage_history.length
    let xs := (List.range n).map (fun i => (i : ℚ))
    let xm := mean xs
    let ym := mean monthly_usage_history
    let sxy := (List.zipWith (fun x y => (x - xm) * (y - ym)) xs monthly_usage_history).sum
    let sxx := (xs.map (fun x => (x - xm) ^ 2)).sum
    let slope := sxy / sxx
    if |slope| < (1/20) * ym then "stable"
    else if 0 < slope then "increasing"
    else "decreasing"

/-- Seasonal flag of detect_seasonality: false for fewer than 12 points,
otherwise the FFT-based spectral test (abstracted in the oracle). -/
def detect_seasonality_flag (o : NumOracle) (monthly_series : List ℚ) : Bool :=
  if monthly_series.length < 12 then false else o.fftSeasonal monthly_series

/-! ## usage_calculator.py — data model and estimators -/

/-- UsageResult dataclass. -/
structure UsageResult where
  product_id : String
  monthly_usage_units : ℚ
  monthly_usage_packs : ℚ
  calculation_method : String
  confidence_score : ℚ
  confidence_level : String
  data_months : ℤ
  calculation_tier : String
  seasonality_detected : Bool
  trend_direction : String
  outliers_detected : ℤ
  variance : ℚ := 0
  cv : ℚ := 0
  days_since_last_data : ℤ := 0
deriving DecidableEq, Repr

/-- Row of the monthly order-fulfillment aggregation query: month start
(as a day count), summed units and packs, transaction count.  The count
column is materialized into the DataFrame but never read downstream. -/
structure OrderRow where
  month : ℚ
  total_units : ℚ
  total_packs : ℚ
  transaction_count : ℕ
deriving DecidableEq, Repr

/-- Row of the stock_history query: recording instant (as a day count),
packs, units and source.  Rows arrive ascending by recorded_at. -/
structure SnapRow where
  recorded_at : ℚ
  packs_available : ℚ
  total_units : ℚ
  source : String
deriving DecidableEq, Repr

/-- Product fields the calculator reads. -/
structure Product where
  pack_size : ℚ
  notification_point : Option ℚ
deriving DecidableEq, Repr

/-- ClientConfiguration fields the calculator reads. -/
structure ClientConfig where
  reorder_lead_days : ℚ
  safety_stock_weeks : ℚ
deriving DecidableEq, Repr

/-- UsageCalculator._calculate_from_orders: time-weighted average of the
monthly completed-order totals, with variance/CV/outlier/recency
diagnostics and an order_fulfillment confidence score. -/
def calculate_from_orders (o : NumOracle) (product_id : String)
    (rows : List OrderRow) (now : ℚ) : Option UsageResult :=
  if rows = [] then none
  else
    let data_months := rows.length
    if data_months = 0 then none
    else
      let units := rows.map (·.total_units)
      let packs := rows.map (·.total_packs)
      let weights := generate_time_weights data_months (3/2)
      let weighted_avg_units := npAverage units weights
      let weighted_avg_packs := npAverage packs weights
      let variance := sampleVar units
      let cv := coefficient_of_variation o units
      let days_since_last := ⌊now - (rows.getLastD ⟨0, 0, 0, 0⟩).month⌋
      let outliers := detect_outliers_iqr units
      let confidence_score :=
        calculate_confidence data_months cv days_since_last "order_fulfillment" none
      some
        { product_id := product_id
          monthly_usage_units := weighted_avg_units
          monthly_usage_packs := weighted_avg_packs
          calculation_method := "order_fulfillment"
          confidence_score := confidence_score
          confidence_level := classify_confidence_level confidence_score
          data_months := data_months
          calculation_tier := determine_calculation_tier data_months
          seasonality_detected := false
          trend_direction := "unknown"
          outliers_detected := outliers.outlier_count
          variance := variance
          cv := cv
          days_since_last_data := days_since_last }

/-- Consecutive-snapshot deltas (pandas .diff() rows): change in units and
the floor day count between recordings. -/
structure SnapDelta where
  delta_units : ℚ
  days_between : ℤ
deriving DecidableEq, Repr

/-- The per-row deltas of _calculate_from_snapshots. -/
def snapshot_deltas (rows : List SnapRow) : List SnapDelta :=
  (rows.zip rows.tail).map fun p =>
    ⟨p.2.total_units - p.1.total_units, ⌊p.2.recorded_at - p.1.recorded_at⌋⟩

/-- Consumption events: deltas with strictly negative unit change. -/
def consumption_events (rows : List SnapRow) : List SnapDelta :=
  (snapshot_deltas rows).filter (fun d => d.delta_units < 0)

/-- Implied daily usage per consumption event, |delta| / days_between,
restricted to strictly positive rates (the first outlier filter).  A
same-day pair divides a positive consumption by zero, which in the source
is the float +inf: it passes the strictly-positive filter and takes part in
the 0.95 quantile below, so the rates are rationals extended with ⊤. -/
def daily_usage_rates (rows : List SnapRow) : List (WithTop ℚ) :=
  ((consumption_events rows).map
    (fun d => divInf |d.delta_units| (d.days_between : ℚ))).filter (fun r => 0 < r)

/-- The daily rates that survive the second outlier filter, the strict trim
below the 0.95 quantile of the positive rates.  A NaN quantile (outer none)
makes every strict comparison false, so nothing survives; otherwise a row
survives exactly when its rate is strictly below the quantile, which no
+inf row ever is, so the survivors are all finite and are repackaged as
plain rationals (the ⊤ default of untop' is never taken). -/
def trimmed_rates (rows : List SnapRow) : List ℚ :=
  let rates := daily_usage_rates rows
  match quantileLinearF (95/100) rates with
  | none => []
  | some qv => (rates.filter (fun r => r < qv)).map (WithTop.untop' 0)

/-- UsageCalculator._calculate_from_snapshots: needs at least 2 snapshots
and at least one consumption event; averages the per-event daily rates that
survive the positivity filter and the strict trim below the 0.95 quantile,
scaled by 30.44 to a monthly figure. -/
def calculate_from_snapshots (o : NumOracle) (product_id : String)
    (rows : List SnapRow) (product : Option Product) (now : ℚ) : Option UsageResult :=
  if rows.length < 2 then none
  else if consumption_events rows = [] then none
  else
    let trimmed := trimmed_rates rows
    if trimmed = [] then none
    else
      let avg_daily_usage := mean trimmed
      let monthly_usage_units := avg_daily_usage * (3044/100)
      let pack_size := (product.map (·.pack_size)).getD 1
      let monthly_usage_packs := monthly_usage_units / pack_size
      let monthly_equiv := trimmed.map (fun r => r * (3044/100))
      let variance := sampleVar monthly_equiv
      let cv := coefficient_of_variation o monthly_equiv
      let last := rows.getLastD ⟨0, 0, 0, ""⟩
      let first := rows.headD ⟨0, 0, 0, ""⟩
      let days_since_last := ⌊now - last.recorded_at⌋
      let outliers := detect_outliers_iqr monthly_equiv
      let date_range := ⌊last.recorded_at - first.recorded_at⌋
      let data_months := truncQ ((date_range : ℚ) / (3044/100))
      let confidence_score :=
        calculate_confidence trimmed.length cv days_since_last "snapshot_delta" none
      some
        { product_id := product_id
          monthly_usage_units := monthly_usage_units
          monthly_usage_packs := monthly_usage_packs
          calculation_method := "snapshot_delta"
          confidence_score := confidence_score
          confidence_level := classify_confidence_level confidence_score
          data_months := data_months
          calculation_tier := determine_calculation_tier data_months
          seasonality_detected := false
          trend_direction := "unknown"
          outliers_detected := outliers.outlier_count
          variance := variance
          cv := cv
          days_since_last_data := days_since_last }

/-- UsageCalculator._combine_results: the hybrid merge.  Degenerates to the
present input when only one estimator succeeded; with both present it takes
the confidence-proportional weighted average of the usages (returning the
order result untouched when both confidences are zero) and the capped
boosted confidence min((c_order + c_snapshot)/1.5, 1). -/
def combine_results (order_result snapshot_result : Option UsageResult) :
    Option UsageResult :=
  match order_result, snapshot_result with
  | none, none => none
  | none, some s => some s
  | some o, none => some o
  | some o, some s =>
    let total_confidence := o.confidence_score + s.confidence_score
    if total_confidence = 0 then some o
    else
      let order_weight := o.confidence_score / total_confidence
      let snapshot_weight := s.confidence_score / total_confidence
      let combined_confidence :=
        min ((o.confidence_score + s.confidence_score) / (3/2)) 1
      some
        { product_id := o.product_id
          monthly_usage_units :=
            o.monthly_usage_units * order_weight + s.monthly_usage_units * snapshot_weight
          monthly_usage_packs :=
            o.monthly_usage_packs * order_weight + s.monthly_usage_packs * snapshot_weight
          calculation_method := "hybrid"
          confidence_score := combined_confidence
          confidence_level := classify_confidence_level combined_confidence
          data_months := max o.data_months s.data_months
          calculation_tier := determine_calculation_tier (max o.data_months s.data_months)
          seasonality_detected := false
          trend_direction := "unknown"
          outliers_detected := o.outliers_detected + s.outliers_detected
          variance := (o.variance + s.variance) / 2
          cv := (o.cv + s.cv) / 2
          days_since_last_data := min o.days_since_last_data s.days_since_last_data }

/-- Lead time in weeks: the client reorder_lead_days (default 14) over 7. -/
def config_lead_time_weeks (config : Option ClientConfig) : ℚ :=
  (match config with
    | some c => c.reorder_lead_days
    | none => 14) / 7

/-- Safety stock weeks from the client configuration (default 2). -/
def config_safety_weeks (config : Option ClientConfig) : ℚ :=
  match config with
  | some c => c.safety_stock_weeks
  | none => 2

/-- UsageCalculator._estimate_from_notification_point: treats the (truthy)
notification point as lead-time-plus-safety weeks of usage, with client
defaults lead 14 days / 2 safety weeks and a 3-week divisor fallback. -/
def estimate_from_notification_point (product_id : String)
    (product : Option Product) (config : Option ClientConfig) : Option UsageResult :=
  match product with
  | none => none
  | some p =>
    match p.notification_point with
    | none => none
    | some np =>
      if np = 0 then none
      else
        let lead_time_weeks := config_lead_time_weeks config
        let safety_weeks := config_safety_weeks config
        let total_weeks := lead_time_weeks + safety_weeks
        let estimated_weekly_usage_packs :=
          if total_weeks > 0 then np / total_weeks else np / 3
        let monthly_usage_packs := estimated_weekly_usage_packs * (433/100)
        let monthly_usage_units := monthly_usage_packs * p.pack_size
        some
          { product_id := product_id
            monthly_usage_units := monthly_usage_units
            monthly_usage_packs := monthly_usage_packs
            calculation_method := "estimated"
            confidence_score := 3/10
            confidence_level := "low"
            data_months := 0
            calculation_tier := "estimated"
            seasonality_detected := false
            trend_direction := "unknown"
            outliers_detected := 0 }

/-- UsageCalculator._enrich_with_patterns: re-reads the monthly order
history and, given at least 3 monthly points, overwrites the trend and
seasonality fields of the selected result; everything else is preserved. -/
def enrich_with_patterns (o : NumOracle) (orderRows : List OrderRow)
    (result : UsageResult) : UsageResult :=
  if orderRows.length < 3 then result
  else
    let monthly_usage := orderRows.map (·.total_units)
    { result with
      trend_direction := usage_velocity_trend_direction monthly_usage
      seasonality_detected := detect_seasonality_flag o monthly_usage }

/-- The zero-usage sentinel returned when every estimator came back empty. -/
def no_data_result (product_id : String) : UsageResult :=
  { product_id := product_id
    monthly_usage_units := 0
    monthly_usage_packs := 0
    calculation_method := "no_data"
    confidence_score := 0
    confidence_level := "low"
    data_months := 0
    calculation_tier := "no_data"
    seasonality_detected := false
    trend_direction := "unknown"
    outliers_detected := 0 }

/-- The non-null results of [hybrid, order, snapshot, estimated], in that
order. -/
def candidate_results (o : NumOracle) (product_id : String)
    (orderRows : List OrderRow) (snapRows : List SnapRow)
    (product : Option Product) (config : Option ClientConfig) (now : ℚ) :
    List UsageResult :=
  let order_result := calculate_from_orders o product_id orderRows now
  let snapshot_result := calculate_from_snapshots o product_id snapRows product now
  let hybrid_result := combine_results order_result snapshot_result
  let estimated_result := estimate_from_notification_point product_id product config
  [hybrid_result, order_result, snapshot_result, estimated_result].filterMap id

/-- Python list.sort is stable, so sorting descending by confidence and
taking the head returns the earliest candidate attaining the maximal
confidence; this fold computes that element directly. -/
def select_best (r : UsageResult) (rs : List UsageResult) : UsageResult :=
  rs.foldl (fun b x => if b.confidence_score < x.confidence_score then x else b) r

/-- Concrete UsageResult fixture used to exercise the hybrid merge in
closed theorems. -/
def mkTestResult (calculation_method : String) (confidence_score : ℚ) : UsageResult :=
  { product_id := "p"
    monthly_usage_units := 10
    monthly_usage_packs := 1
    calculation_method := calculation_method
    confidence_score := confidence_score
    confidence_level := classify_confidence_level confidence_score
    data_months := 6
    calculation_tier := "6_month"
    seasonality_detected := false
    trend_direction := "unknown"
    outliers_detected := 0 }

/-- UsageCalculator.calculate_monthly_usage: runs the four estimators,
returns the zero-usage no_data sentinel when none produced a result, and
otherwise enriches and returns the highest-confidence candidate. -/
def calculate_monthly_usage (o : NumOracle) (product_id : String)
    (orderRows : List OrderRow) (snapRows : List SnapRow)
    (product : Option Product) (config : Option ClientConfig) (now : ℚ) :
    UsageResult :=
  match candidate_results o product_id orderRows snapRows product config now with
  | [] => no_data_result product_id
  | r :: rs => enrich_with_patterns o orderRows (select_best r rs)

/-! ## Helper lemmas -/

theorem round2_nonneg {x : ℚ} (h : 0 ≤ x) : 0 ≤ round2 x := by
  unfold round2
  have : (0 : ℤ) ≤ ⌊x * 100 + 1/2⌋ := by
    apply Int.le_floor.mpr
    push_cast
    linarith
  positivity

theorem round2_le_one {x : ℚ} (h : x ≤ 1) : round2 x ≤ 1 := by
  unfold round2
  have hfl : ⌊x * 100 + 1/2⌋ ≤ 100 := by
    have : x * 100 + 1/2 < 101 := by linarith
    exact Int.lt_add_one_iff.mp (Int.floor_lt.mpr (by push_cast; linarith))
  rw [div_le_one (by norm_num)]
  exact_mod_cast hfl

theorem truncQ_intCast (n : ℤ) : truncQ (n : ℚ) = n := by
  unfold truncQ
  split
  · exact Int.floor_intCast n
  · exact Int.ceil_intCast n

theorem score_data_points_bounds (n : ℕ) :
    0 ≤ score_data_points n ∧ score_data_points n ≤ 1 := by
  unfold score_data_points
  split_ifs <;> norm_num

theorem score_consistency_bounds (cv : ℚ) :
    0 ≤ score_consistency cv ∧ score_consistency cv ≤ 1 := by
  unfold score_consistency
  split_ifs <;> norm_num

theorem score_recency_bounds (d : ℤ) :
    0 ≤ score_recency d ∧ score_recency d ≤ 1 := by
  unfold score_recency
  split_ifs <;> norm_num

theorem method_score_bounds (m : String) :
    0 ≤ method_score m ∧ method_score m ≤ 1 := by
  unfold method_score
  split_ifs <;> norm_num

theorem calculate_confidence_bounds (dp : ℕ) (cv : ℚ) (days : ℤ) (m : String)
    (cvs : Option ℚ) (h : ∀ c, cvs = some c → 0 ≤ c ∧ c ≤ 1) :
    0 ≤ calculate_confidence dp cv days m cvs
      ∧ calculate_confidence dp cv days m cvs ≤ 1 := by
  obtain ⟨h1, h2⟩ := score_data_points_bounds dp
  obtain ⟨h3, h4⟩ := score_consistency_bounds cv
  obtain ⟨h5, h6⟩ := score_recency_bounds days
  obtain ⟨h7, h8⟩ := method_score_bounds m
  have hcv : 0 ≤ cvs.getD (1/2) ∧ cvs.getD (1/2) ≤ 1 := by
    cases cvs with
    | none => norm_num
    | some c => simpa using h c rfl
  unfold calculate_confidence
  constructor
  · exact round2_nonneg (by nlinarith [hcv.1, hcv.2])
  · exact round2_le_one (by nlinarith [hcv.1, hcv.2])

theorem calculate_confidence_nonneg (dp : ℕ) (cv : ℚ) (days : ℤ) (m : String) :
    0 ≤ calculate_confidence dp cv days m none :=
  (calculate_confidence_bounds dp cv days m none (by intro c hc; cases hc)).1

theorem zipWith_mul_sum_nonneg :
    ∀ (a b : List ℚ), (∀ x ∈ a, 0 ≤ x) → (∀ y ∈ b, 0 ≤ y) →
      0 ≤ (List.zipWith (· * ·) a b).sum := by
  intro a
  induction a with
  | nil => intro b _ _; simp
  | cons x xs ih =>
    intro b ha hb
    cases b with
    | nil => simp
    | cons y ys =>
      simp only [List.zipWith_cons_cons, List.sum_cons]
      have hx : 0 ≤ x := ha x (List.mem_cons_self x xs)
      have hy : 0 ≤ y := hb y (List.mem_cons_self y ys)
      have hrest : 0 ≤ (List.zipWith (· * ·) xs ys).sum :=
        ih ys (fun z hz => ha z (List.mem_cons_of_mem x hz))
          (fun z hz => hb z (List.mem_cons_of_mem y hz))
      nlinarith

theorem generate_time_weights_nonneg (n : ℕ) (rw : ℚ) (hrw : 0 ≤ rw) :
    ∀ w ∈ generate_time_weights n rw, 0 ≤ w := by
  intro w hw
  unfold generate_time_weights at hw
  set raw := if n ≥ 3
    then List.replicate (n - 3) 1 ++ List.replicate 3 rw
    else List.replicate n 1 with hraw
  have hmem : ∀ x ∈ raw, 0 ≤ x := by
    intro x hx
    rw [hraw] at hx
    split at hx
    · rcases List.mem_append.mp hx with h | h
      · rw [List.eq_of_mem_replicate h]; norm_num
      · rw [List.eq_of_mem_replicate h]; exact hrw
    · rw [List.eq_of_mem_replicate hx]; norm_num
  obtain ⟨x, hx, hxw⟩ := List.mem_map.mp hw
  have hsum : 0 ≤ raw.sum := List.sum_nonneg hmem
  rw [← hxw]
  exact div_nonneg (hmem x hx) hsum

theorem npAverage_nonneg (values weights : List ℚ)
    (hv : ∀ x ∈ values, 0 ≤ x) (hw : ∀ y ∈ weights, 0 ≤ y) :
    0 ≤ npAverage values weights := by
  unfold npAverage
  exact div_nonneg (zipWith_mul_sum_nonneg values weights hv hw)
    (List.sum_nonneg hw)

theorem mean_pos {l : List ℚ} (h : ∀ x ∈ l, 0 < x) (hne : l ≠ []) :
    0 < mean l := by
  unfold mean
  apply div_pos (List.sum_pos l h hne)
  have : 0 < l.length := List.length_pos.mpr hne
  exact_mod_cast this

theorem length_insertSorted {α : Type} [LinearOrder α] (x : α) (l : List α) :
    (insertSorted x l).length = l.length + 1 := by
  induction l with
  | nil => rfl
  | cons y ys ih =>
    unfold insertSorted
    split
    · rfl
    · simp [ih]

theorem mem_insertSorted {α : Type} [LinearOrder α] (z x : α) (l : List α) :
    z ∈ insertSorted x l ↔ z = x ∨ z ∈ l := by
  induction l with
  | nil => simp [insertSorted]
  | cons y ys ih =>
    unfold insertSorted
    split
    · simp
    · simp only [List.mem_cons, ih]
      tauto

theorem length_sortQ {α : Type} [LinearOrder α] (l : List α) :
    (sortQ l).length = l.length := by
  induction l with
  | nil => rfl
  | cons x xs ih =>
    unfold sortQ
    rw [length_insertSorted, ih, List.length_cons]

theorem mem_sortQ {α : Type} [LinearOrder α] (z : α) (l : List α) :
    z ∈ sortQ l ↔ z ∈ l := by
  induction l with
  | nil => simp [sortQ]
  | cons x xs ih =>
    unfold sortQ
    rw [mem_insertSorted]
    simp [ih]

theorem getD_all_eq {α : Type} {s : List α} {c : α} (hall : ∀ x ∈ s, x = c) {i : ℕ}
    (hi : i < s.length) (d : α) : s.getD i d = c := by
  rw [List.getD_eq_getElem s d hi]
  exact hall _ (List.getElem_mem hi)

theorem quantileLinear_all_eq {l : List ℚ} {c : ℚ} (hne : l ≠ [])
    (hall : ∀ x ∈ l, x = c) : quantileLinear (95/100) l = c := by
  have hs : sortQ l ≠ [] := by
    intro h
    apply hne
    have hlen := length_sortQ l
    rw [h] at hlen
    exact List.length_eq_zero.mp hlen.symm
  have hallS : ∀ x ∈ sortQ l, x = c := fun x hx => hall x ((mem_sortQ x l).mp hx)
  have hn1 : 1 ≤ (sortQ l).length := List.length_pos.mpr hs
  set n : ℕ := (sortQ l).length with hn
  set hq : ℚ := ((n : ℚ) - 1) * (95/100) with hhq
  have hcast : ((n : ℚ) - 1) = (((n : ℤ) - 1 : ℤ) : ℚ) := by push_cast; ring
  have h0 : (0 : ℚ) ≤ (n : ℚ) - 1 := by
    have : (1 : ℚ) ≤ (n : ℚ) := by exact_mod_cast hn1
    linarith
  have hfl_le : ⌊hq⌋ ≤ (n : ℤ) - 1 := by
    have hle2 : hq ≤ (n : ℚ) - 1 := by rw [hhq]; nlinarith
    have := Int.floor_le_floor hle2
    rwa [hcast, Int.floor_intCast] at this
  have hi_lt : (⌊hq⌋).toNat < n := by omega
  have hlo : (sortQ l).getD (⌊hq⌋).toNat 0 = c := getD_all_eq hallS hi_lt 0
  have hhi : (sortQ l).getD ((⌊hq⌋).toNat + 1) c = c := by
    by_cases hlt : (⌊hq⌋).toNat + 1 < n
    · exact getD_all_eq hallS hlt _
    · rw [List.getD_eq_default]
      omega
  simp only [quantileLinear, if_neg hs, ← hn, ← hhq]
  rw [hlo, hhi]
  ring

theorem select_best_mem (r : UsageResult) (rs : List UsageResult) :
    select_best r rs ∈ r :: rs := by
  induction rs generalizing r with
  | nil => simp [select_best]
  | cons x xs ih =>
    unfold select_best
    rw [List.foldl_cons]
    have step := ih (if r.confidence_score < x.confidence_score then x else r)
    unfold select_best at step
    rcases List.mem_cons.mp step with h | h
    · rw [h]
      split
      · exact List.mem_cons_of_mem r (List.mem_cons_self x xs)
      · exact List.mem_cons_self r (x :: xs)
    · exact List.mem_cons_of_mem r (List.mem_cons_of_mem x h)

theorem select_best_le (r : UsageResult) (rs : List UsageResult) :
    ∀ c ∈ r :: rs, c.confidence_score ≤ (select_best r rs).confidence_score := by
  induction rs generalizing r with
  | nil =>
    intro c hc
    rcases List.mem_cons.mp hc with h | h
    · rw [h]; simp [select_best]
    · cases h
  | cons x xs ih =>
    intro c hc
    have hfold : select_best r (x :: xs)
        = select_best (if r.confidence_score < x.confidence_score then x else r) xs := by
      unfold select_best
      rw [List.foldl_cons]
    set r1 := if r.confidence_score < x.confidence_score then x else r with hr1
    have hr_le : r.confidence_score ≤ r1.confidence_score := by
      rw [hr1]; split
      · linarith
      · exact le_refl _
    have hx_le : x.confidence_score ≤ r1.confidence_score := by
      rw [hr1]; split
      · exact le_refl _
      · linarith
    have hhead := ih r1 r1 (List.mem_cons_self r1 xs)
    rcases List.mem_cons.mp hc with h | h
    · rw [h, hfold]
      exact le_trans hr_le hhead
    · rcases List.mem_cons.mp h with h2 | h2
      · rw [h2, hfold]
        exact le_trans hx_le hhead
      · rw [hfold]
        exact ih r1 c (List.mem_cons_of_mem r1 h2)

theorem enrich_preserves (o : NumOracle) (rows : List OrderRow) (res : UsageResult) :
    (enrich_with_patterns o rows res).product_id = res.product_id
    ∧ (enrich_with_patterns o rows res).monthly_usage_units = res.monthly_usage_units
    ∧ (enrich_with_patterns o rows res).monthly_usage_packs = res.monthly_usage_packs
    ∧ (enrich_with_patterns o rows res).calculation_method = res.calculation_method
    ∧ (enrich_with_patterns o rows res).confidence_score = res.confidence_score
    ∧ (enrich_with_patterns o rows res).confidence_level = res.confidence_level
    ∧ (enrich_with_patterns o rows res).data_months = res.data_months
    ∧ (enrich_with_patterns o rows res).calculation_tier = res.calculation_tier
    ∧ (enrich_with_patterns o rows res).outliers_detected = res.outliers_detected
    ∧ (enrich_with_patterns o rows res).variance = res.variance
    ∧ (enrich_with_patterns o rows res).cv = res.cv
    ∧ (enrich_with_patterns o rows res).days_since_last_data = res.days_since_last_data := by
  unfold enrich_with_patterns
  split <;> simp

theorem calculate_from_orders_eq (o : NumOracle) (pid : String)
    (rows : List OrderRow) (now : ℚ) (hne : rows ≠ []) :
    calculate_from_orders o pid rows now = some
      { product_id := pid
        monthly_usage_units :=
          npAverage (rows.map (·.total_units)) (generate_time_weights rows.length (3/2))
        monthly_usage_packs :=
          npAverage (rows.map (·.total_packs)) (generate_time_weights rows.length (3/2))
        calculation_method := "order_fulfillment"
        confidence_score :=
          calculate_confidence rows.length
            (coefficient_of_variation o (rows.map (·.total_units)))
            ⌊now - (rows.getLastD ⟨0, 0, 0, 0⟩).month⌋ "order_fulfillment" none
        confidence_level :=
          classify_confidence_level (calculate_confidence rows.length
            (coefficient_of_variation o (rows.map (·.total_units)))
            ⌊now - (rows.getLastD ⟨0, 0, 0, 0⟩).month⌋ "order_fulfillment" none)
        data_months := (rows.length : ℤ)
        calculation_tier := determine_calculation_tier (rows.length : ℤ)
        seasonality_detected := false
        trend_direction := "unknown"
        outliers_detected := ((detect_outliers_iqr (rows.map (·.total_units))).outlier_count : ℤ)
        variance := sampleVar (rows.map (·.total_units))
        cv := coefficient_of_variation o (rows.map (·.total_units))
        days_since_last_data := ⌊now - (rows.getLastD ⟨0, 0, 0, 0⟩).month⌋ } := by
  have hlen : ¬(rows.length = 0) := by simpa using hne
  unfold calculate_from_orders
  simp [hne, hlen]

theorem calculate_from_snapshots_eq (o : NumOracle) (pid : String)
    (rows : List SnapRow) (product : Option Product) (now : ℚ)
    (h2 : ¬(rows.length < 2)) (hcons : consumption_events rows ≠ [])
    (htr : trimmed_rates rows ≠ []) :
    calculate_from_snapshots o pid rows product now = some
      { product_id := pid
        monthly_usage_units := mean (trimmed_rates rows) * (3044/100)
        monthly_usage_packs :=
          mean (trimmed_rates rows) * (3044/100) / ((product.map (·.pack_size)).getD 1)
        calculation_method := "snapshot_delta"
        confidence_score :=
          calculate_confidence (trimmed_rates rows).length
            (coefficient_of_variation o ((trimmed_rates rows).map (fun r => r * (3044/100))))
            ⌊now - (rows.getLastD ⟨0, 0, 0, ""⟩).recorded_at⌋ "snapshot_delta" none
        confidence_level :=
          classify_confidence_level (calculate_confidence (trimmed_rates rows).length
            (coefficient_of_variation o ((trimmed_rates rows).map (fun r => r * (3044/100))))
            ⌊now - (rows.getLastD ⟨0, 0, 0, ""⟩).recorded_at⌋ "snapshot_delta" none)
        data_months :=
          truncQ ((⌊(rows.getLastD ⟨0, 0, 0, ""⟩).recorded_at
            - (rows.headD ⟨0, 0, 0, ""⟩).recorded_at⌋ : ℚ) / (3044/100))
        calculation_tier :=
          determine_calculation_tier (truncQ ((⌊(rows.getLastD ⟨0, 0, 0, ""⟩).recorded_at
            - (rows.headD ⟨0, 0, 0, ""⟩).recorded_at⌋ : ℚ) / (3044/100)))
        seasonality_detected := false
        trend_direction := "unknown"
        outliers_detected :=
          ((detect_outliers_iqr ((trimmed_rates rows).map (fun r => r * (3044/100)))).outlier_count : ℤ)
        variance := sampleVar ((trimmed_rates rows).map (fun r => r * (3044/100)))
        cv := coefficient_of_variation o ((trimmed_rates rows).map (fun r => r * (3044/100)))
        days_since_last_data := ⌊now - (rows.getLastD ⟨0, 0, 0, ""⟩).recorded_at⌋ } := by
  unfold calculate_from_snapshots
  simp [h2, hcons, htr]

theorem estimate_from_notification_point_eq (pid : String) (p : Product)
    (config : Option ClientConfig) (np : ℚ) (hnp : p.notification_point = some np)
    (hne : np ≠ 0) :
    estimate_from_notification_point pid (some p) config = some
      { product_id := pid
        monthly_usage_units :=
          (if config_lead_time_weeks config + config_safety_weeks config > 0
            then np / (config_lead_time_weeks config + config_safety_weeks config)
            else np / 3) * (433/100) * p.pack_size
        monthly_usage_packs :=
          (if config_lead_time_weeks config + config_safety_weeks config > 0
            then np / (config_lead_time_weeks config + config_safety_weeks config)
            else np / 3) * (433/100)
        calculation_method := "estimated"
        confidence_score := 3/10
        confidence_level := "low"
        data_months := 0
        calculation_tier := "estimated"
        seasonality_detected := false
        trend_direction := "unknown"
        outliers_detected := 0 } := by
  unfold estimate_from_notification_point
  dsimp only
  rw [hnp]
  simp [hne]

theorem floor_q95_index_lt {n : ℕ} (hn : 1 ≤ n) :
    (⌊((n : ℚ) - 1) * (95/100)⌋).toNat < n := by
  have h0 : (0 : ℚ) ≤ (n : ℚ) - 1 := by
    have : (1 : ℚ) ≤ (n : ℚ) := by exact_mod_cast hn
    linarith
  have hcast : ((n : ℚ) - 1) = (((n : ℤ) - 1 : ℤ) : ℚ) := by push_cast; ring
  have hfl_le : ⌊((n : ℚ) - 1) * (95/100)⌋ ≤ (n : ℤ) - 1 := by
    have hle2 : ((n : ℚ) - 1) * (95/100) ≤ (n : ℚ) - 1 := by nlinarith
    have h5 : (⌊((n : ℚ) - 1) * (95/100)⌋ : ℚ) ≤ (n : ℚ) - 1 :=
      le_trans (Int.floor_le _) hle2
    exact_mod_cast h5
  omega

theorem quantileLinearF_all_coe {l : List (WithTop ℚ)} {c : ℚ} (hne : l ≠ [])
    (hall : ∀ x ∈ l, x = ((c : ℚ) : WithTop ℚ)) :
    quantileLinearF (95/100) l = some ((c : ℚ) : WithTop ℚ) := by
  have hs : sortQ l ≠ [] := by
    intro hnil
    apply hne
    have hlen := length_sortQ l
    rw [hnil] at hlen
    exact List.length_eq_zero.mp hlen.symm
  have hallS : ∀ x ∈ sortQ l, x = ((c : ℚ) : WithTop ℚ) := fun x hx =>
    hall x ((mem_sortQ x l).mp hx)
  have hn1 : 1 ≤ (sortQ l).length := List.length_pos.mpr hs
  have hi_lt : (⌊(((sortQ l).length : ℚ) - 1) * (95/100)⌋).toNat < (sortQ l).length :=
    floor_q95_index_lt hn1
  have hlo : (sortQ l).getD (⌊(((sortQ l).length : ℚ) - 1) * (95/100)⌋).toNat 0
      = ((c : ℚ) : WithTop ℚ) := getD_all_eq hallS hi_lt 0
  have hhi : (sortQ l).getD ((⌊(((sortQ l).length : ℚ) - 1) * (95/100)⌋).toNat + 1)
      ((c : ℚ) : WithTop ℚ) = ((c : ℚ) : WithTop ℚ) := by
    by_cases hlt : (⌊(((sortQ l).length : ℚ) - 1) * (95/100)⌋).toNat + 1 < (sortQ l).length
    · exact getD_all_eq hallS hlt _
    · rw [List.getD_eq_default]
      omega
  simp only [quantileLinearF, if_neg hs]
  rw [hlo, hhi]
  show some ((c + _ * (c - c) : ℚ) : WithTop ℚ) = some ((c : ℚ) : WithTop ℚ)
  ring_nf

theorem quantileLinearF_all_top {l : List (WithTop ℚ)} (hne : l ≠ [])
    (hall : ∀ x ∈ l, x = (⊤ : WithTop ℚ)) :
    quantileLinearF (95/100) l = none := by
  have hs : sortQ l ≠ [] := by
    intro hnil
    apply hne
    have hlen := length_sortQ l
    rw [hnil] at hlen
    exact List.length_eq_zero.mp hlen.symm
  have hallS : ∀ x ∈ sortQ l, x = (⊤ : WithTop ℚ) := fun x hx =>
    hall x ((mem_sortQ x l).mp hx)
  have hn1 : 1 ≤ (sortQ l).length := List.length_pos.mpr hs
  have hi_lt : (⌊(((sortQ l).length : ℚ) - 1) * (95/100)⌋).toNat < (sortQ l).length :=
    floor_q95_index_lt hn1
  have hlo : (sortQ l).getD (⌊(((sortQ l).length : ℚ) - 1) * (95/100)⌋).toNat 0
      = (⊤ : WithTop ℚ) := getD_all_eq hallS hi_lt 0
  simp only [quantileLinearF, if_neg hs]
  rw [hlo]

theorem trimmed_rates_eq_nil {rows : List SnapRow}
    (h : ∀ x ∈ daily_usage_rates rows, ∀ y ∈ daily_usage_rates rows, x = y) :
    trimmed_rates rows = [] := by
  unfold trimmed_rates
  dsimp only
  cases hq : quantileLinearF (95/100) (daily_usage_rates rows) with
  | none => rfl
  | some qv =>
    dsimp only
    rw [List.map_eq_nil_iff, List.filter_eq_nil_iff]
    intro x hx
    have hall : ∀ y ∈ daily_usage_rates rows, y = x := fun y hy => h y hy x hx
    cases x with
    | top =>
      have htop := quantileLinearF_all_top (List.ne_nil_of_mem hx) hall
      rw [htop] at hq
      cases hq
    | coe cx =>
      have hcoe := quantileLinearF_all_coe (List.ne_nil_of_mem hx) hall
      rw [hcoe] at hq
      obtain rfl := Option.some.inj hq
      simp

theorem trimmed_rates_pos (rows : List SnapRow) :
    ∀ x ∈ trimmed_rates rows, 0 < x := by
  intro x hx
  unfold trimmed_rates at hx
  dsimp only at hx
  cases hq : quantileLinearF (95/100) (daily_usage_rates rows) with
  | none =>
    rw [hq] at hx
    simp at hx
  | some qv =>
    rw [hq] at hx
    dsimp only at hx
    obtain ⟨r, hr, rfl⟩ := List.mem_map.mp hx
    have hrf := List.mem_filter.mp hr
    have hlt : r < qv := by simpa using hrf.2
    have hpos : (0 : WithTop ℚ) < r := by
      have := (List.mem_filter.mp (by
        have := hrf.1
        unfold daily_usage_rates at this
        exact this)).2
      simpa using this
    cases r with
    | top => exact absurd hlt (by simp)
    | coe v =>
      rw [WithTop.untop'_coe]
      exact_mod_cast hpos

theorem calculate_from_orders_nonneg {o : NumOracle} {pid : String}
    {rows : List OrderRow} {now : ℚ} {r : UsageResult}
    (hnn : ∀ row ∈ rows, 0 ≤ row.total_units)
    (h : calculate_from_orders o pid rows now = some r) :
    0 ≤ r.monthly_usage_units ∧ 0 ≤ r.confidence_score := by
  by_cases hne : rows = []
  · rw [hne] at h
    simp [calculate_from_orders] at h
  · rw [calculate_from_orders_eq o pid rows now hne] at h
    obtain rfl := Option.some.inj h
    constructor
    · apply npAverage_nonneg
      · intro x hx
        obtain ⟨row, hrow, rfl⟩ := List.mem_map.mp hx
        exact hnn row hrow
      · exact generate_time_weights_nonneg rows.length (3/2) (by norm_num)
    · exact calculate_confidence_nonneg _ _ _ _

theorem calculate_from_snapshots_nonneg {o : NumOracle} {pid : String}
    {rows : List SnapRow} {product : Option Product} {now : ℚ} {r : UsageResult}
    (h : calculate_from_snapshots o pid rows product now = some r) :
    0 ≤ r.monthly_usage_units ∧ 0 ≤ r.confidence_score := by
  by_cases h2 : rows.length < 2
  · simp [calculate_from_snapshots, h2] at h
  · by_cases hcons : consumption_events rows = []
    · simp [calculate_from_snapshots, h2, hcons] at h
    · by_cases htr : trimmed_rates rows = []
      · simp [calculate_from_snapshots, h2, hcons, htr] at h
      · rw [calculate_from_snapshots_eq o pid rows product now h2 hcons htr] at h
        obtain rfl := Option.some.inj h
        constructor
        · have hpos := mean_pos (trimmed_rates_pos rows) htr
          have : (0 : ℚ) < mean (trimmed_rates rows) * (3044/100) := by positivity
          exact le_of_lt this
        · exact calculate_confidence_nonneg _ _ _ _

theorem estimate_from_notification_point_nonneg {pid : String}
    {product : Option Product} {config : Option ClientConfig} {r : UsageResult}
    (hp : ∀ p, product = some p →
      0 ≤ p.pack_size ∧ ∀ np, p.notification_point = some np → 0 ≤ np)
    (h : estimate_from_notification_point pid product config = some r) :
    0 ≤ r.monthly_usage_units ∧ 0 ≤ r.confidence_score := by
  cases product with
  | none => simp [estimate_from_notification_point] at h
  | some p =>
    cases hnp : p.notification_point with
    | none => simp [estimate_from_notification_point, hnp] at h
    | some np =>
      by_cases hz : np = 0
      · simp [estimate_from_notification_point, hnp, hz] at h
      · rw [estimate_from_notification_point_eq pid p config np hnp hz] at h
        obtain rfl := Option.some.inj h
        obtain ⟨hps, hnp0⟩ := hp p rfl
        have hv : 0 ≤ np := hnp0 np hnp
        constructor
        · have hw : (0 : ℚ) ≤
              (if config_lead_time_weeks config + config_safety_weeks config > 0
                then np / (config_lead_time_weeks config + config_safety_weeks config)
                else np / 3) := by
            split
            · next hgt => exact div_nonneg hv (le_of_lt hgt)
            · exact div_nonneg hv (by norm_num)
          have : (0 : ℚ) ≤
              (if config_lead_time_weeks config + config_safety_weeks config > 0
                then np / (config_lead_time_weeks config + config_safety_weeks config)
                else np / 3) * (433/100) := by nlinarith
          exact mul_nonneg this hps
        · norm_num

theorem combine_results_nonneg {ro rs : Option UsageResult}
    (ho : ∀ x, ro = some x → 0 ≤ x.monthly_usage_units ∧ 0 ≤ x.confidence_score)
    (hs : ∀ x, rs = some x → 0 ≤ x.monthly_usage_units ∧ 0 ≤ x.confidence_score) :
    ∀ x, combine_results ro rs = some x →
      0 ≤ x.monthly_usage_units ∧ 0 ≤ x.confidence_score := by
  intro x hx
  cases ro with
  | none =>
    cases rs with
    | none => simp [combine_results] at hx
    | some s =>
      simp only [combine_results, Option.some.injEq] at hx
      exact hx ▸ hs s rfl
  | some o =>
    cases rs with
    | none =>
      simp only [combine_results, Option.some.injEq] at hx
      exact hx ▸ ho o rfl
    | some s =>
      obtain ⟨hou, hoc⟩ := ho o rfl
      obtain ⟨hsu, hsc⟩ := hs s rfl
      unfold combine_results at hx
      dsimp only at hx
      by_cases ht : o.confidence_score + s.confidence_score = 0
      · rw [if_pos ht] at hx
        obtain rfl := Option.some.inj hx
        exact ⟨hou, hoc⟩
      · rw [if_neg ht] at hx
        obtain rfl := Option.some.inj hx
        have htot : (0 : ℚ) ≤ o.confidence_score + s.confidence_score := by linarith
        constructor
        · have h1 : 0 ≤ o.confidence_score / (o.confidence_score + s.confidence_score) :=
            div_nonneg hoc htot
          have h2 : 0 ≤ s.confidence_score / (o.confidence_score + s.confidence_score) :=
            div_nonneg hsc htot
          have := mul_nonneg hou h1
          have := mul_nonneg hsu h2
          simp only
          nlinarith
        · simp only
          apply le_min
          · apply div_nonneg (by linarith)
            norm_num
          · norm_num

theorem combine_results_eq (o s : UsageResult)
    (ht : o.confidence_score + s.confidence_score ≠ 0) :
    combine_results (some o) (some s) = some
      { product_id := o.product_id
        monthly_usage_units :=
          o.monthly_usage_units
            * (o.confidence_score / (o.confidence_score + s.confidence_score))
          + s.monthly_usage_units
            * (s.confidence_score / (o.confidence_score + s.confidence_score))
        monthly_usage_packs :=
          o.monthly_usage_packs
            * (o.confidence_score / (o.confidence_score + s.confidence_score))
          + s.monthly_usage_packs
            * (s.confidence_score / (o.confidence_score + s.confidence_score))
        calculation_method := "hybrid"
        confidence_score := min ((o.confidence_score + s.confidence_score) / (3/2)) 1
        confidence_level :=
          classify_confidence_level
            (min ((o.confidence_score + s.confidence_score) / (3/2)) 1)
        data_months := max o.data_months s.data_months
        calculation_tier := determine_calculation_tier (max o.data_months s.data_months)
        seasonality_detected := false
        trend_direction := "unknown"
        outliers_detected := o.outliers_detected + s.outliers_detected
        variance := (o.variance + s.variance) / 2
        cv := (o.cv + s.cv) / 2
        days_since_last_data := min o.days_since_last_data s.days_since_last_data } := by
  unfold combine_results
  dsimp only
  rw [if_neg ht]

theorem candidate_mem {o : NumOracle} {pid : String} {orows : List OrderRow}
    {srows : List SnapRow} {product : Option Product} {config : Option ClientConfig}
    {now : ℚ} {x : UsageResult}
    (hx : x ∈ candidate_results o pid orows srows product config now) :
    combine_results (calculate_from_orders o pid orows now)
        (calculate_from_snapshots o pid srows product now) = some x
    ∨ calculate_from_orders o pid orows now = some x
    ∨ calculate_from_snapshots o pid srows product now = some x
    ∨ estimate_from_notification_point pid product config = some x := by
  unfold candidate_results at hx
  simp only [List.mem_filterMap, List.mem_cons, List.mem_singleton, id] at hx
  obtain ⟨a, ha, rfl⟩ := hx
  rcases ha with h | h | h | h
  · exact Or.inl h.symm
  · exact Or.inr (Or.inl h.symm)
  · exact Or.inr (Or.inr (Or.inl h.symm))
  · rcases h with h | h
    · exact Or.inr (Or.inr (Or.inr h.symm))
    · cases h

/-! ## Claim theorems -/

/-- C1: when the order-fulfillment, snapshot-delta and notification-point
estimators (and hence also the hybrid merge) all produce no result,
calculate_monthly_usage returns — it is a total function, so it cannot
raise — the zero-usage sentinel with calculation_method "no_data",
confidence_score 0 and monthly_usage_units 0; otherwise it returns the
non-null candidate from [hybrid, order, snapshot, estimated] attaining the
highest confidence_score (the final enrichment pass only touches the trend
and seasonality fields, so usage, confidence and method are those of that
candidate). -/
theorem calculate_monthly_usage_selects_best (o : NumOracle) (pid : String)
    (orows : List OrderRow) (srows : List SnapRow) (product : Option Product)
    (config : Option ClientConfig) (now : ℚ) :
    (calculate_from_orders o pid orows now = none →
      calculate_from_snapshots o pid srows product now = none →
      estimate_from_notification_point pid product config = none →
      calculate_monthly_usage o pid orows srows product config now = no_data_result pid
        ∧ (no_data_result pid).calculation_method = "no_data"
        ∧ (no_data_result pid).confidence_score = 0
        ∧ (no_data_result pid).monthly_usage_units = 0)
    ∧ (∀ r rs, candidate_results o pid orows srows product config now = r :: rs →
        ∃ best ∈ r :: rs,
          (∀ c ∈ r :: rs, c.confidence_score ≤ best.confidence_score)
          ∧ calculate_monthly_usage o pid orows srows product config now
              = enrich_with_patterns o orows best
          ∧ (calculate_monthly_usage o pid orows srows product config now).monthly_usage_units
              = best.monthly_usage_units
          ∧ (calculate_monthly_usage o pid orows srows product config now).confidence_score
              = best.confidence_score
          ∧ (calculate_monthly_usage o pid orows srows product config now).calculation_method
              = best.calculation_method) := by
  constructor
  · intro h1 h2 h3
    refine ⟨?_, rfl, rfl, rfl⟩
    unfold calculate_monthly_usage candidate_results
    rw [h1, h2, h3]
    rfl
  · intro r rs hc
    have hm : calculate_monthly_usage o pid orows srows product config now
        = enrich_with_patterns o orows (select_best r rs) := by
      unfold calculate_monthly_usage
      rw [hc]
    obtain ⟨hpid, hu, hpk, hmeth, hconf, hrest⟩ :=
      enrich_preserves o orows (select_best r rs)
    exact ⟨select_best r rs, select_best_mem r rs, select_best_le r rs, hm,
      by rw [hm]; exact hu, by rw [hm]; exact hconf, by rw [hm]; exact hmeth⟩

/-- Witness for C1: with no transactions, no snapshots and no product, the
no-data branch is reached and returns the sentinel. -/
theorem calculate_monthly_usage_selects_best_witness :
    calculate_monthly_usage constOracle "p" [] [] none none 0 = no_data_result "p" :=
  ((calculate_monthly_usage_selects_best constOracle "p" [] [] none none 0).1
    rfl rfl rfl).1

/-- C2 counterexample: a data state the schema admits (one completed-order
month whose summed quantity_units is negative, as the validator rule
"usage cannot be negative" anticipates) makes the order-fulfillment
estimator win and calculate_monthly_usage return a strictly negative
monthly_usage_units. -/
theorem monthly_usage_negative_counterexample :
    (calculate_monthly_usage constOracle "p" [⟨0, -10, -1, 1⟩] [] none none 0).monthly_usage_units
      < 0 := by
  have hne : ([⟨0, -10, -1, 1⟩] : List OrderRow) ≠ [] := by simp
  have h1 := calculate_from_orders_eq constOracle "p" [⟨0, -10, -1, 1⟩] 0 hne
  obtain ⟨R, hR⟩ : ∃ R, calculate_from_orders constOracle "p" [⟨0, -10, -1, 1⟩] 0 = some R :=
    ⟨_, h1⟩
  have hRrec := Option.some.inj (hR.symm.trans h1)
  have hu : R.monthly_usage_units = -10 := by
    rw [hRrec]
    show npAverage _ _ = -10
    norm_num [npAverage, generate_time_weights]
  have hsnap : calculate_from_snapshots constOracle "p" [] none 0 = none := by
    simp [calculate_from_snapshots]
  have hest : estimate_from_notification_point "p" none none = none := rfl
  have hcand : candidate_results constOracle "p" [⟨0, -10, -1, 1⟩] [] none none 0 = [R, R] := by
    unfold candidate_results
    rw [hR, hsnap, hest]
    simp [combine_results]
  have hpipe : calculate_monthly_usage constOracle "p" [⟨0, -10, -1, 1⟩] [] none none 0
      = enrich_with_patterns constOracle [⟨0, -10, -1, 1⟩] (select_best R [R]) := by
    unfold calculate_monthly_usage
    rw [hcand]
  have hsel : select_best R [R] = R := by
    unfold select_best
    simp
  have henr : enrich_with_patterns constOracle [⟨0, -10, -1, 1⟩] R = R := by
    unfold enrich_with_patterns
    norm_num
  rw [hpipe, hsel, henr, hu]
  norm_num

/-- C2 amended: monthly_usage_units is non-negative for the snapshot-delta
estimator unconditionally (only consumption deltas are kept and
non-positive daily rates are filtered), and for the order-fulfillment
estimator, the notification-point fallback, the hybrid merge and
calculate_monthly_usage itself provided the monthly order totals, the pack
size and the notification point are non-negative. -/
theorem monthly_usage_units_nonneg (o : NumOracle) (pid : String)
    (orows : List OrderRow) (srows : List SnapRow) (product : Option Product)
    (config : Option ClientConfig) (now : ℚ)
    (horder : ∀ row ∈ orows, 0 ≤ row.total_units)
    (hprod : ∀ p, product = some p →
      0 ≤ p.pack_size ∧ ∀ np, p.notification_point = some np → 0 ≤ np) :
    (∀ r, calculate_from_snapshots o pid srows product now = some r →
        0 ≤ r.monthly_usage_units)
    ∧ (∀ r, calculate_from_orders o pid orows now = some r →
        0 ≤ r.monthly_usage_units)
    ∧ (∀ r, estimate_from_notification_point pid product config = some r →
        0 ≤ r.monthly_usage_units)
    ∧ (∀ r, combine_results (calculate_from_orders o pid orows now)
          (calculate_from_snapshots o pid srows product now) = some r →
        0 ≤ r.monthly_usage_units)
    ∧ 0 ≤ (calculate_monthly_usage o pid orows srows product config now).monthly_usage_units := by
  refine ⟨?_, ?_, ?_, ?_, ?_⟩
  · intro r h
    exact (calculate_from_snapshots_nonneg h).1
  · intro r h
    exact (calculate_from_orders_nonneg horder h).1
  · intro r h
    exact (estimate_from_notification_point_nonneg hprod h).1
  · intro r h
    exact (combine_results_nonneg
      (fun x hx => calculate_from_orders_nonneg horder hx)
      (fun x hx => calculate_from_snapshots_nonneg hx) r h).1
  · unfold calculate_monthly_usage
    cases hc : candidate_results o pid orows srows product config now with
    | nil => norm_num [no_data_result]
    | cons r rs =>
      have hb := select_best_mem r rs
      rw [← hc] at hb
      have husage : 0 ≤ (select_best r rs).monthly_usage_units := by
        rcases candidate_mem hb with h | h | h | h
        · exact (combine_results_nonneg
            (fun x hx => calculate_from_orders_nonneg horder hx)
            (fun x hx => calculate_from_snapshots_nonneg hx) _ h).1
        · exact (calculate_from_orders_nonneg horder h).1
        · exact (calculate_from_snapshots_nonneg h).1
        · exact (estimate_from_notification_point_nonneg hprod h).1
      obtain ⟨hpid, hu, hrest⟩ := enrich_preserves o orows (select_best r rs)
      rw [hu]
      exact husage

/-- Witness for C2 amended: a single non-negative order month yields a
non-negative pipeline result. -/
theorem monthly_usage_units_nonneg_witness :
    0 ≤ (calculate_monthly_usage constOracle "p" [⟨0, 10, 1, 1⟩] [] none none 0).monthly_usage_units :=
  (monthly_usage_units_nonneg constOracle "p" [⟨0, 10, 1, 1⟩] [] none none 0
    (by simp) (fun p hp => by cases hp)).2.2.2.2

/-- C3: whenever the supplied cross-validation score (if any) lies in
[0,1], calculate_confidence — the weighted sum with weights data_points
0.30, consistency 0.25, recency 0.20, method_reliability 0.15,
cross_validation 0.10, rounded to 2 decimals — returns a value in [0,1],
and the hybrid merge confidence also lies in [0,1] when its two input
confidences do. -/
theorem confidence_score_in_unit_interval :
    (∀ (dp : ℕ) (cv : ℚ) (days : ℤ) (m : String) (cvs : Option ℚ),
      (∀ c, cvs = some c → 0 ≤ c ∧ c ≤ 1) →
      0 ≤ calculate_confidence dp cv days m cvs
        ∧ calculate_confidence dp cv days m cvs ≤ 1)
    ∧ (∀ o s r : UsageResult, 0 ≤ o.confidence_score → o.confidence_score ≤ 1 →
        0 ≤ s.confidence_score → s.confidence_score ≤ 1 →
        combine_results (some o) (some s) = some r →
        0 ≤ r.confidence_score ∧ r.confidence_score ≤ 1) := by
  constructor
  · intro dp cv days m cvs h
    exact calculate_confidence_bounds dp cv days m cvs h
  · intro o s r h0 h1 h2 h3 hc
    by_cases ht : o.confidence_score + s.confidence_score = 0
    · unfold combine_results at hc
      dsimp only at hc
      rw [if_pos ht] at hc
      obtain rfl := Option.some.inj hc
      exact ⟨h0, h1⟩
    · rw [combine_results_eq o s ht] at hc
      obtain rfl := Option.some.inj hc
      refine ⟨le_min (div_nonneg (by linarith) (by norm_num)) (by norm_num), ?_⟩
      exact min_le_right _ _

/-- Witness for C3: a fully concrete confidence computation lands in
[0,1]. -/
theorem confidence_score_in_unit_interval_witness :
    0 ≤ calculate_confidence 12 (1/10) 10 "hybrid" (some (1/2))
      ∧ calculate_confidence 12 (1/10) 10 "hybrid" (some (1/2)) ≤ 1 :=
  confidence_score_in_unit_interval.1 12 (1/10) 10 "hybrid" (some (1/2))
    (by intro c hc; injection hc with h; subst h; norm_num)

/-- C4: with both estimators present (and the always-positive confidence
total the pipeline produces), the hybrid merges by confidence-proportional
weighting of the usages, takes confidence min((c_o + c_s)/1.5, 1), the max
of the data_months, the sum of the outlier counts, the arithmetic mean of
variance and cv, and the min of days_since_last_data; with exactly one
estimator present it degenerates to that result, and with neither it is
None. -/
theorem combine_results_merge_rule (o s : UsageResult)
    (hpos : 0 < o.confidence_score + s.confidence_score) :
    (∃ r, combine_results (some o) (some s) = some r
      ∧ r.monthly_usage_units
          = o.monthly_usage_units
              * (o.confidence_score / (o.confidence_score + s.confidence_score))
            + s.monthly_usage_units
              * (s.confidence_score / (o.confidence_score + s.confidence_score))
      ∧ r.monthly_usage_packs
          = o.monthly_usage_packs
              * (o.confidence_score / (o.confidence_score + s.confidence_score))
            + s.monthly_usage_packs
              * (s.confidence_score / (o.confidence_score + s.confidence_score))
      ∧ r.calculation_method = "hybrid"
      ∧ r.confidence_score = min ((o.confidence_score + s.confidence_score) / (3/2)) 1
      ∧ r.data_months = max o.data_months s.data_months
      ∧ r.outliers_detected = o.outliers_detected + s.outliers_detected
      ∧ r.variance = (o.variance + s.variance) / 2
      ∧ r.cv = (o.cv + s.cv) / 2
      ∧ r.days_since_last_data = min o.days_since_last_data s.days_since_last_data)
    ∧ combine_results (some o) none = some o
    ∧ combine_results none (some s) = some s
    ∧ (combine_results none none : Option UsageResult) = none :=
  ⟨⟨_, combine_results_eq o s hpos.ne', rfl, rfl, rfl, rfl, rfl, rfl, rfl, rfl, rfl⟩,
    rfl, rfl, rfl⟩

/-- Witness for C4: the merge formula instantiated on two concrete
results. -/
theorem combine_results_merge_rule_witness :
    (combine_results (some (mkTestResult "order_fulfillment" (7/10)))
      (some (mkTestResult "snapshot_delta" (3/5)))).map (·.confidence_score)
      = some (min (((7:ℚ)/10 + 3/5) / (3/2)) 1) := by
  obtain ⟨⟨r, hr, hu, hp, hm, hc, hrest⟩, hdeg⟩ :=
    combine_results_merge_rule (mkTestResult "order_fulfillment" (7/10))
      (mkTestResult "snapshot_delta" (3/5)) (by norm_num [mkTestResult])
  rw [hr]
  simp only [Option.map_some']
  rw [hc]
  rfl

/-- C5: the hybrid confidence is not monotone above its inputs — with a
very unequal pair it falls strictly below the larger input, with an equal
mid pair it strictly exceeds both (the corroboration boost), and whenever
the total confidence is non-zero it never exceeds 1. -/
theorem hybrid_confidence_non_monotone :
    (∃ r, combine_results (some (mkTestResult "order_fulfillment" (9/10)))
        (some (mkTestResult "snapshot_delta" (1/20))) = some r
      ∧ r.confidence_score
          < max (mkTestResult "order_fulfillment" (9/10)).confidence_score
              (mkTestResult "snapshot_delta" (1/20)).confidence_score)
    ∧ (∃ r, combine_results (some (mkTestResult "order_fulfillment" (3/5)))
        (some (mkTestResult "snapshot_delta" (3/5))) = some r
      ∧ max (mkTestResult "order_fulfillment" (3/5)).confidence_score
          (mkTestResult "snapshot_delta" (3/5)).confidence_score < r.confidence_score)
    ∧ (∀ o s r : UsageResult, o.confidence_score + s.confidence_score ≠ 0 →
        combine_results (some o) (some s) = some r → r.confidence_score ≤ 1) := by
  refine ⟨?_, ?_, ?_⟩
  · refine ⟨_, combine_results_eq _ _ (by norm_num [mkTestResult]), ?_⟩
    show min (((9:ℚ)/10 + 1/20) / (3/2)) 1 < max ((9:ℚ)/10) (1/20)
    rw [min_def, max_def]
    norm_num
  · refine ⟨_, combine_results_eq _ _ (by norm_num [mkTestResult]), ?_⟩
    show max ((3:ℚ)/5) (3/5) < min (((3:ℚ)/5 + 3/5) / (3/2)) 1
    rw [min_def, max_def]
    norm_num
  · intro o s r ht hc
    rw [combine_results_eq o s ht] at hc
    obtain rfl := Option.some.inj hc
    exact min_le_right _ _

/-- Witness for C5: the cap applied at a fully concrete merge. -/
theorem hybrid_confidence_non_monotone_witness :
    ((combine_results (some (mkTestResult "order_fulfillment" (1/2)))
      (some (mkTestResult "snapshot_delta" (1/2)))).getD
        (no_data_result "p")).confidence_score ≤ 1 := by
  have h := combine_results_eq (mkTestResult "order_fulfillment" (1/2))
    (mkTestResult "snapshot_delta" (1/2)) (by norm_num [mkTestResult])
  rw [h, Option.getD_some]
  exact hybrid_confidence_non_monotone.2.2 _ _ _ (by norm_num [mkTestResult]) h

/-- C6 counterexample: the notification-point fallback result has
data_months 0 but carries the literal calculation_tier "estimated", not the
"weekly" the data_months thresholds would dictate. -/
theorem fallback_tier_counterexample :
    (estimate_from_notification_point "p" (some ⟨1, some 10⟩) none).map (·.calculation_tier)
        = some "estimated"
    ∧ (estimate_from_notification_point "p" (some ⟨1, some 10⟩) none).map (·.data_months)
        = some 0
    ∧ determine_calculation_tier 0 = "weekly"
    ∧ (estimate_from_notification_point "p" (some ⟨1, some 10⟩) none).map (·.calculation_tier)
        ≠ some (determine_calculation_tier 0) := by
  have h := estimate_from_notification_point_eq "p" ⟨1, some 10⟩ none 10 rfl (by norm_num)
  rw [h]
  refine ⟨rfl, rfl, rfl, ?_⟩
  simp [determine_calculation_tier]

/-- C6 amended: the order-fulfillment, snapshot-delta and hybrid results
satisfy calculation_tier = determine_calculation_tier data_months (12_month
at 12 or more months, 6_month at 6, 3_month at 3, else weekly), but the
notification-point fallback carries the literal tier "estimated" despite
data_months 0, and the no-data sentinel the literal "no_data". -/
theorem calculation_tier_rule (o : NumOracle) (pid : String)
    (orows : List OrderRow) (srows : List SnapRow) (product : Option Product)
    (config : Option ClientConfig) (now : ℚ) :
    (∀ r, calculate_from_orders o pid orows now = some r →
        r.calculation_tier = determine_calculation_tier r.data_months)
    ∧ (∀ r, calculate_from_snapshots o pid srows product now = some r →
        r.calculation_tier = determine_calculation_tier r.data_months)
    ∧ (∀ (ro rs : Option UsageResult) (r : UsageResult),
        (∀ x, ro = some x → x.calculation_tier = determine_calculation_tier x.data_months) →
        (∀ x, rs = some x → x.calculation_tier = determine_calculation_tier x.data_months) →
        combine_results ro rs = some r →
        r.calculation_tier = determine_calculation_tier r.data_months)
    ∧ (∀ r, estimate_from_notification_point pid product config = some r →
        r.calculation_tier = "estimated" ∧ r.data_months = 0)
    ∧ (no_data_result pid).calculation_tier = "no_data" := by
  refine ⟨?_, ?_, ?_, ?_, rfl⟩
  · intro r h
    by_cases hne : orows = []
    · rw [hne] at h
      simp [calculate_from_orders] at h
    · rw [calculate_from_orders_eq o pid orows now hne] at h
      obtain rfl := Option.some.inj h
      rfl
  · intro r h
    by_cases h2 : srows.length < 2
    · simp [calculate_from_snapshots, h2] at h
    · by_cases hcons : consumption_events srows = []
      · simp [calculate_from_snapshots, h2, hcons] at h
      · by_cases htr : trimmed_rates srows = []
        · simp [calculate_from_snapshots, h2, hcons, htr] at h
        · rw [calculate_from_snapshots_eq o pid srows product now h2 hcons htr] at h
          obtain rfl := Option.some.inj h
          rfl
  · intro ro rs r ho hs hc
    cases ro with
    | none =>
      cases rs with
      | none => simp [combine_results] at hc
      | some s =>
        simp only [combine_results, Option.some.injEq] at hc
        exact hc ▸ hs s rfl
    | some ores =>
      cases rs with
      | none =>
        simp only [combine_results, Option.some.injEq] at hc
        exact hc ▸ ho ores rfl
      | some s =>
        by_cases ht : ores.confidence_score + s.confidence_score = 0
        · unfold combine_results at hc
          dsimp only at hc
          rw [if_pos ht] at hc
          obtain rfl := Option.some.inj hc
          exact ho ores rfl
        · rw [combine_results_eq ores s ht] at hc
          obtain rfl := Option.some.inj hc
          rfl
  · intro r h
    cases product with
    | none => simp [estimate_from_notification_point] at h
    | some p =>
      cases hnp : p.notification_point with
      | none => simp [estimate_from_notification_point, hnp] at h
      | some np =>
        by_cases hz : np = 0
        · simp [estimate_from_notification_point, hnp, hz] at h
        · rw [estimate_from_notification_point_eq pid p config np hnp hz] at h
          obtain rfl := Option.some.inj h
          exact ⟨rfl, rfl⟩

/-- Witness for C6 amended: the tier rule evaluated on a one-month order
history. -/
theorem calculation_tier_rule_witness :
    ((calculate_from_orders constOracle "p" [⟨0, 10, 1, 1⟩] 0).getD
        (no_data_result "p")).calculation_tier
      = determine_calculation_tier
          ((calculate_from_orders constOracle "p" [⟨0, 10, 1, 1⟩] 0).getD
            (no_data_result "p")).data_months := by
  have h := calculate_from_orders_eq constOracle "p" [⟨0, 10, 1, 1⟩] 0 (by simp)
  exact (calculation_tier_rule constOracle "p" [⟨0, 10, 1, 1⟩] [] none none 0).1 _
    (by rw [h]; rfl)

/-- Multiplying the ceiling of x / d back by a positive d can only round
up. -/
theorem le_ceil_div_mul (x : ℚ) (d : ℤ) (hd : 0 < d) :
    x ≤ ((⌈x / (d : ℚ)⌉ : ℤ) : ℚ) * d := by
  have hd' : (0 : ℚ) < (d : ℚ) := by exact_mod_cast hd
  exact (div_le_iff₀ hd').mp (Int.le_ceil _)

/-- C7: calculate_reorder_quantity never under-orders — with a positive
pack size the suggested units cover max(0, reorder_point − current_stock)
whatever the order multiple, since every rounding is a ceiling; and the
spec example (monthly 100, lead 14 days, safety 2 weeks, stock 0, packs of
10) yields exactly 10 packs. -/
theorem calculate_reorder_quantity_never_under_orders :
    (∀ (mu : ℚ) (ltd ssw : ℤ) (cs : ℚ) (ps : ℤ) (om : Option ℤ), 0 < ps →
      max 0 (mu / (3044/100) * ltd + mu / (3044/100) * 7 * ssw - cs)
        ≤ ((calculate_reorder_quantity mu ltd ssw cs ps om).suggested_quantity_units : ℚ))
    ∧ (calculate_reorder_quantity 100 14 2 0 10 none).suggested_quantity_packs = 10 := by
  constructor
  · intro mu ltd ssw cs ps om hps
    unfold calculate_reorder_quantity
    dsimp only
    rw [if_pos hps]
    set q := max 0 (mu / (3044/100) * ltd + mu / (3044/100) * 7 * ssw - cs) with hq
    have hstep1 : q ≤ ((⌈q / (ps : ℚ)⌉ : ℤ) : ℚ) * ps := le_ceil_div_mul q ps hps
    cases om with
    | none =>
      dsimp only
      rw [show ((⌈q / (ps : ℚ)⌉ : ℤ) : ℚ) * (ps : ℚ)
          = ((⌈q / (ps : ℚ)⌉ * ps : ℤ) : ℚ) by push_cast; ring]
      rw [truncQ_intCast]
      rw [show ((⌈q / (ps : ℚ)⌉ * ps : ℤ) : ℚ)
          = ((⌈q / (ps : ℚ)⌉ : ℤ) : ℚ) * (ps : ℚ) by push_cast; ring] at *
      exact hstep1
    | some m =>
      dsimp only
      by_cases hm : 0 < m
      · rw [if_pos hm]
        have hstep2 : ((⌈q / (ps : ℚ)⌉ : ℤ) : ℚ)
            ≤ ((⌈((⌈q / (ps : ℚ)⌉ : ℤ) : ℚ) / (m : ℚ)⌉ : ℤ) : ℚ) * m :=
          le_ceil_div_mul _ m hm
        have hps' : (0 : ℚ) < (ps : ℚ) := by exact_mod_cast hps
        rw [show ((⌈((⌈q / (ps : ℚ)⌉ : ℤ) : ℚ) / (m : ℚ)⌉ : ℤ) : ℚ) * (m : ℚ) * (ps : ℚ)
            = ((⌈((⌈q / (ps : ℚ)⌉ : ℤ) : ℚ) / (m : ℚ)⌉ * m * ps : ℤ) : ℚ) by push_cast; ring]
        rw [truncQ_intCast]
        rw [show ((⌈((⌈q / (ps : ℚ)⌉ : ℤ) : ℚ) / (m : ℚ)⌉ * m * ps : ℤ) : ℚ)
            = ((⌈((⌈q / (ps : ℚ)⌉ : ℤ) : ℚ) / (m : ℚ)⌉ : ℤ) : ℚ) * (m : ℚ) * (ps : ℚ) by
          push_cast; ring]
        calc q ≤ ((⌈q / (ps : ℚ)⌉ : ℤ) : ℚ) * ps := hstep1
          _ ≤ ((⌈((⌈q / (ps : ℚ)⌉ : ℤ) : ℚ) / (m : ℚ)⌉ : ℤ) : ℚ) * (m : ℚ) * (ps : ℚ) := by
            nlinarith
      · rw [if_neg hm]
        rw [show ((⌈q / (ps : ℚ)⌉ : ℤ) : ℚ) * (ps : ℚ)
            = ((⌈q / (ps : ℚ)⌉ * ps : ℤ) : ℚ) by push_cast; ring]
        rw [truncQ_intCast]
        rw [show ((⌈q / (ps : ℚ)⌉ * ps : ℤ) : ℚ)
            = ((⌈q / (ps : ℚ)⌉ : ℤ) : ℚ) * (ps : ℚ) by push_cast; ring]
        exact hstep1
  · unfold calculate_reorder_quantity
    dsimp only
    norm_num
    have hc : ⌈(7000 : ℚ)/761⌉ = 10 := by
      rw [Int.ceil_eq_iff]
      constructor <;> norm_num
    rw [hc, truncQ_intCast]

/-- Witness for C7: the never-under-order bound at the spec example. -/
theorem calculate_reorder_quantity_never_under_orders_witness :
    max 0 ((100 : ℚ) / (3044/100) * 14 + 100 / (3044/100) * 7 * 2 - 0)
      ≤ ((calculate_reorder_quantity 100 14 2 0 10 none).suggested_quantity_units : ℚ) :=
  calculate_reorder_quantity_never_under_orders.1 100 14 2 0 10 none (by norm_num)

/-- Round-half-up to 2 decimals leaves one half fixed. -/
theorem round2_half : round2 (1/2) = 1/2 := by
  unfold round2
  have h : ⌊(1 : ℚ)/2 * 100 + 1/2⌋ = 50 := by
    rw [Int.floor_eq_iff]
    constructor <;> norm_num
  rw [h]
  norm_num

/-- C8 counterexample: at current_stock 0, daily_usage_rate 5 the early
return leaves the three prediction fields None but sets confidence_score to
the value 0.0, so not every field is None. -/
theorem stockout_exhausted_counterexample :
    (predict_stockout_date constOracle 0 5 0).confidence_score = some 0
    ∧ ¬((predict_stockout_date constOracle 0 5 0).predicted_date = none
        ∧ (predict_stockout_date constOracle 0 5 0).days_until_stockout = none
        ∧ (predict_stockout_date constOracle 0 5 0).confidence_score = none
        ∧ (predict_stockout_date constOracle 0 5 0).confidence_interval = none) := by
  have h : predict_stockout_date constOracle 0 5 0 = ⟨none, none, some 0, none⟩ := by
    unfold predict_stockout_date
    rw [if_pos (Or.inr le_rfl)]
  rw [h]
  exact ⟨rfl, fun hall => Option.noConfusion hall.2.2.1⟩

/-- C8 amended: with exhausted stock or a non-positive rate,
predict_stockout_date returns None for predicted_date, days_until_stockout
and confidence_interval, and the value 0.0 (not None) for
confidence_score — no stockout-today prediction is produced. -/
theorem predict_stockout_exhausted (o : NumOracle)
    (current_stock daily_usage_rate usage_variance : ℚ)
    (h : current_stock ≤ 0 ∨ daily_usage_rate ≤ 0) :
    predict_stockout_date o current_stock daily_usage_rate usage_variance
      = ⟨none, none, some 0, none⟩ := by
  unfold predict_stockout_date
  rw [if_pos h.symm]

/-- Witness for C8 amended: the exhausted-stock scenario of the spec. -/
theorem predict_stockout_exhausted_witness :
    predict_stockout_date constOracle 0 5 0 = ⟨none, none, some 0, none⟩ :=
  predict_stockout_exhausted constOracle 0 5 0 (Or.inl le_rfl)

/-- C9 counterexample: with positive stock and rate but no variance, the
returned confidence_interval is not None — it is the degenerate interval at
the predicted date (10 / 5 = 2 days out). -/
theorem stockout_degenerate_interval_counterexample :
    (predict_stockout_date constOracle 10 5 0).confidence_interval = some (2, 2)
    ∧ (predict_stockout_date constOracle 10 5 0).confidence_interval ≠ none
    ∧ (predict_stockout_date constOracle 10 5 0).confidence_score = some (1/2) := by
  have h : predict_stockout_date constOracle 10 5 0
      = ⟨some 2, some 2, some (1/2), some (2, 2)⟩ := by
    unfold predict_stockout_date
    rw [if_neg (by norm_num), if_neg (by norm_num)]
    have hd : (10 : ℚ)/5 = 2 := by norm_num
    have ht : truncQ ((10 : ℚ)/5) = 2 := by
      rw [hd, show (2 : ℚ) = ((2 : ℤ) : ℚ) by norm_num, truncQ_intCast]
    rw [round2_half, ht, hd]
  rw [h]
  exact ⟨rfl, by simp, rfl⟩

/-- C9 amended: with positive stock and rate but no supplied variance, the
confidence_score is 0.5 and the confidence_interval is the degenerate
interval whose endpoints both equal the predicted stockout date. -/
theorem predict_stockout_no_variance (o : NumOracle)
    (current_stock daily_usage_rate usage_variance : ℚ)
    (h1 : 0 < current_stock) (h2 : 0 < daily_usage_rate)
    (h3 : usage_variance ≤ 0) :
    (predict_stockout_date o current_stock daily_usage_rate usage_variance).confidence_score
        = some (1/2)
    ∧ (predict_stockout_date o current_stock daily_usage_rate usage_variance).confidence_interval
        = some (current_stock / daily_usage_rate, current_stock / daily_usage_rate) := by
  have hcond : ¬(daily_usage_rate ≤ 0 ∨ current_stock ≤ 0) := by
    push_neg
    exact ⟨h2, h1⟩
  have hvar : ¬(usage_variance > 0) := not_lt.mpr h3
  unfold predict_stockout_date
  rw [if_neg hcond]
  dsimp only
  rw [if_neg hvar]
  exact ⟨by rw [round2_half], rfl⟩

/-- Witness for C9 amended: stock 10 at rate 5 with no variance. -/
theorem predict_stockout_no_variance_witness :
    (predict_stockout_date constOracle 10 5 0).confidence_score = some (1/2)
    ∧ (predict_stockout_date constOracle 10 5 0).confidence_interval
        = some ((10 : ℚ)/5, (10 : ℚ)/5) :=
  predict_stockout_no_variance constOracle 10 5 0 (by norm_num) (by norm_num) le_rfl

/-- C10: whenever the qualifying per-event daily rates — including any
+inf rates from same-day snapshot pairs, which survive the positivity
filter — are all equal (in particular with a single consumption event), the
strict trim below the 0.95 quantile removes every row and the snapshot
estimator returns None rather than an estimate built from those rates: for
a common finite rate the quantile equals that rate and nothing is strictly
below it, and for a common +inf rate the interpolation yields NaN, under
which every comparison fails. -/
theorem snapshot_equal_rates_give_none (o : NumOracle) (pid : String)
    (rows : List SnapRow) (product : Option Product) (now : ℚ)
    (h : ∀ x ∈ daily_usage_rates rows, ∀ y ∈ daily_usage_rates rows, x = y) :
    calculate_from_snapshots o pid rows product now = none := by
  unfold calculate_from_snapshots
  by_cases h2 : rows.length < 2
  · rw [if_pos h2]
  · rw [if_neg h2]
    by_cases hcons : consumption_events rows = []
    · rw [if_pos hcons]
    · rw [if_neg hcons]
      dsimp only
      rw [if_pos (trimmed_rates_eq_nil h)]

/-- Witness for C10: two snapshots yielding one consumption event at rate
5 per day, trimmed away entirely. -/
theorem snapshot_equal_rates_give_none_witness :
    calculate_from_snapshots constOracle "p"
      [⟨0, 10, 100, "a"⟩, ⟨10, 5, 50, "a"⟩] none 20 = none := by
  apply snapshot_equal_rates_give_none
  have hrates : daily_usage_rates [⟨0, 10, 100, "a"⟩, ⟨10, 5, 50, "a"⟩]
      = [((5 : ℚ) : WithTop ℚ)] := by
    have hfl : ⌊(10 : ℚ) - 0⌋ = 10 := by
      rw [Int.floor_eq_iff]
      constructor <;> norm_num
    simp [daily_usage_rates, consumption_events, snapshot_deltas, divInf, hfl]
    norm_num
  rw [hrates]
  intro x hx y hy
  rw [List.mem_singleton.mp hx, List.mem_singleton.mp hy]

end FulfillmentOps
